import Mathlib

namespace SigilEditor

/-! Shallow embedding of the transactional content-edit protocol and batch
iteration engine of injectedConsole/plugin_help/editor.py.  The content store
(Sigil's BookContainer) is an external collaborator and is modelled by the
functions readfile, id_to_href, id_to_mime handed to each operation; a readfile
result of none models the store raising for a missing item.  Writes are
collected into an explicit list (the sequence of writefile calls). -/

/-- Outcome of running a caller-supplied transform on one item's content:
a normal return, an explicit WriteBack signal carrying data, an explicit
DoNotWriteBack signal, or any other raised error. -/
inductive OpResult (α : Type) where
  | ret : α → OpResult α
  | writeBack : α → OpResult α
  | doNotWriteBack : OpResult α
  | err : OpResult α
deriving DecidableEq

/-- Errors that propagate out of a single-item edit: the store's readfile
raised for the id, or the transform raised an ordinary exception. -/
inductive EditErr where
  | itemNotFound : EditErr
  | opError : EditErr
deriving DecidableEq

/-- Model of editor.edit: read the item, run the transform (catching the
WriteBack and DoNotWriteBack signals), and write back only when the result
differs from the original content. -/
def edit (readfile : String → Option String) (operate : String → OpResult String)
    (manifest_id : String) : Except EditErr (Bool × List (String × String)) :=
  match readfile manifest_id with
  | none => Except.error EditErr.itemNotFound
  | some content =>
    match operate content with
    | OpResult.doNotWriteBack => Except.ok (false, [])
    | OpResult.err => Except.error EditErr.opError
    | OpResult.ret content_new =>
      if content = content_new then Except.ok (false, [])
      else Except.ok (true, [(manifest_id, content_new)])
    | OpResult.writeBack content_new =>
      if content = content_new then Except.ok (false, [])
      else Except.ok (true, [(manifest_id, content_new)])

/-- Context record yielded by re_iter with more_info and passed to a callable
replacement by re_sub with more_info (the bc field of the Python namedtuple is
the ambient store and is omitted). -/
structure IterMatchInfo where
  manifest_id : String
  local_no : Nat
  global_no : Nat
  file_no : Nat
  href : String
  mimetype : String
  matched : String
  string : String
deriving DecidableEq

/-- Error policy accepted by the batch operations. -/
inductive Errors where
  | ignore : Errors
  | raise : Errors
  | skip : Errors
deriving DecidableEq

/-- Environment of external collaborators for the regex engine: the store
lookups, the compiled pattern's finditer, the substitution builder of re.sub
(given the original string and the per-match replacement strings), and the
callable replacement (none models the callable raising on that match). -/
structure REnv where
  readfile : String → Option String
  finditer : String → List String
  subWith : String → List String → String
  id_to_href : String → String
  id_to_mime : String → String
  repl : IterMatchInfo → Option String

/-- Records produced for one file by the more_info loop of re_iter: local_no
starts at i, global_no at j, file_no is k for the whole file. -/
def buildMatchRecs (manifest_id href mime s : String) :
    List String → Nat → Nat → Nat → List IterMatchInfo
  | [], _, _, _ => []
  | m :: ms, i, j, k =>
    ⟨manifest_id, i, j, k, href, mime, m, s⟩ ::
      buildMatchRecs manifest_id href mime s ms (i + 1) (j + 1) k

/-- One file of the more_info branch of re_iter, from counters (j, k): a read
failure is swallowed under ignore (k still advances) and skip (k does not),
and aborts the run under raise; a successful read yields one record per match
and advances k once. -/
def re_iter_more_item (errors : Errors) (env : REnv) (st : Nat × Nat) (manifest_id : String) :
    Option ((Nat × Nat) × List IterMatchInfo) :=
  match env.readfile manifest_id with
  | none =>
    match errors with
    | Errors.skip => some (st, [])
    | Errors.raise => none
    | Errors.ignore => some ((st.1, st.2 + 1), [])
  | some s =>
    let ms := env.finditer s
    some ((st.1 + ms.length, st.2 + 1),
      buildMatchRecs manifest_id (env.id_to_href manifest_id) (env.id_to_mime manifest_id)
        s ms 1 st.1 st.2)

/-- The more_info branch of re_iter over a list of manifest ids, threading
(global_no, file_no) and collecting the yielded records. -/
def re_iter_more (errors : Errors) (env : REnv) :
    List String → Nat × Nat → Option ((Nat × Nat) × List IterMatchInfo)
  | [], st => some (st, [])
  | manifest_id :: ids, st =>
    match re_iter_more_item errors env st manifest_id with
    | none => none
    | some (st2, recs) =>
      match re_iter_more errors env ids st2 with
      | none => none
      | some (st3, recs2) => some (st3, recs ++ recs2)

/-- The records an error-free run of the more_info branch of re_iter yields:
one buildMatchRecs block per file, global_no running on, file_no advancing
once per file. -/
def expectedRecs (env : REnv) : List String → List String → Nat → Nat → List IterMatchInfo
  | [], _, _, _ => []
  | manifest_id :: ids, s :: ss, j, k =>
    buildMatchRecs manifest_id (env.id_to_href manifest_id) (env.id_to_mime manifest_id)
        s (env.finditer s) 1 j k ++
      expectedRecs env ids ss (j + (env.finditer s).length) (k + 1)
  | _ :: _, [], _, _ => []

/-- One file of the plain branch of re_iter: only the raise policy re-raises a
read failure, every other policy silently yields nothing for the file. -/
def re_iter_simple_item (errors : Errors) (readfile : String → Option String)
    (finditer : String → List String) (manifest_id : String) : Option (List String) :=
  match readfile manifest_id with
  | none =>
    match errors with
    | Errors.raise => none
    | _ => some []
  | some s => some (finditer s)

/-- The plain branch of re_iter over a list of manifest ids, concatenating the
yielded matches; none models the generator raising. -/
def re_iter_simple (errors : Errors) (readfile : String → Option String)
    (finditer : String → List String) : List String → Option (List String)
  | [] => some []
  | manifest_id :: ids =>
    match re_iter_simple_item errors readfile finditer manifest_id with
    | none => none
    | some ms =>
      match re_iter_simple errors readfile finditer ids with
      | none => none
      | some rest => some (ms ++ rest)

/-- Result of running the callable replacement over one file's matches:
either every call returned (the replacement strings plus the counters after
the last increment), or some call raised, recorded with the counters at the
raise (earlier matches of the same file already incremented them). -/
inductive SubRun where
  | ok : List String → Nat → Nat → SubRun
  | fail : Nat → Nat → SubRun
deriving DecidableEq

/-- The nested repl closure of re_sub with more_info: each successful call
increments local_no and global_no; a raise stops the substitution. -/
def runRepls (repl : IterMatchInfo → Option String) (manifest_id href mime s : String)
    (k : Nat) : List String → Nat → Nat → SubRun
  | [], i, j => SubRun.ok [] i j
  | m :: ms, i, j =>
    match repl ⟨manifest_id, i, j, k, href, mime, m, s⟩ with
    | none => SubRun.fail i j
    | some r =>
      match runRepls repl manifest_id href mime s k ms (i + 1) (j + 1) with
      | SubRun.ok rs i2 j2 => SubRun.ok (r :: rs) i2 j2
      | SubRun.fail i2 j2 => SubRun.fail i2 j2

/-- State threaded through re_sub with a callable replacement and more_info:
global_no, file_no, and the writes performed so far. -/
structure ReSubSt where
  j : Nat
  k : Nat
  writes : List (String × String)
deriving DecidableEq

/-- One file of re_sub (callable replacement, more_info): on a read failure
skip continues without advancing file_no, ignore advances it, raise aborts;
on a replacement failure skip restores global_no to its value before the file
(the nested closure rolled it back before re-raising) and continues, ignore
keeps the partial increments (re.sub then fails on the None replacement, so
no write happens), raise aborts; on success the substituted string is written
back only when it differs. -/
def re_sub_item (errors : Errors) (env : REnv) (st : ReSubSt) (manifest_id : String) :
    Option ReSubSt :=
  match env.readfile manifest_id with
  | none =>
    match errors with
    | Errors.skip => some st
    | Errors.raise => none
    | Errors.ignore => some { st with k := st.k + 1 }
  | some s =>
    match runRepls env.repl manifest_id (env.id_to_href manifest_id)
        (env.id_to_mime manifest_id) s st.k (env.finditer s) 1 st.j with
    | SubRun.ok rs _ j2 =>
      let s_new := env.subWith s rs
      some { j := j2, k := st.k + 1,
             writes := if s = s_new then st.writes else st.writes ++ [(manifest_id, s_new)] }
    | SubRun.fail _ j2 =>
      match errors with
      | Errors.skip => some st
      | Errors.raise => none
      | Errors.ignore => some { j := j2, k := st.k + 1, writes := st.writes }

/-- re_sub (callable replacement, more_info) over a list of manifest ids. -/
def re_sub_run (errors : Errors) (env : REnv) : List String → ReSubSt → Option ReSubSt
  | [], st => some st
  | manifest_id :: ids, st =>
    match re_sub_item errors env st manifest_id with
    | none => none
    | some st2 => re_sub_run errors env ids st2

/-- One file of edit_batch: the whole per-file body sits in a bare except, so
a read failure or a transform error records success_status false; WriteBack
and DoNotWriteBack raised by the transform are absorbed by ctx_edit and the
file still records true. -/
def edit_batch_item (readfile : String → Option String)
    (operate : String → OpResult String) (manifest_id : String) :
    Bool × List (String × String) :=
  match readfile manifest_id with
  | none => (false, [])
  | some content =>
    match operate content with
    | OpResult.err => (false, [])
    | OpResult.doNotWriteBack => (true, [])
    | OpResult.ret content_new =>
      if content = content_new then (true, []) else (true, [(manifest_id, content_new)])
    | OpResult.writeBack content_new =>
      if content = content_new then (true, []) else (true, [(manifest_id, content_new)])

/-- edit_batch over an explicit id list: the success-status entries in order
plus every write performed. -/
def edit_batch_run (readfile : String → Option String)
    (operate : String → OpResult String) :
    List String → List (String × Bool) × List (String × String)
  | [] => ([], [])
  | manifest_id :: ids =>
    let r := edit_batch_item readfile operate manifest_id
    let rest := edit_batch_run readfile operate ids
    ((manifest_id, r.1) :: rest.1, r.2 ++ rest.2)

/-- Expected (local_no, global_no, file_no) triples for one file: local_no
from i, global_no from g, file_no constantly t. -/
def counterBlock : Nat → Nat → Nat → Nat → List (Nat × Nat × Nat)
  | 0, _, _, _ => []
  | c + 1, i, g, t => (i, g, t) :: counterBlock c (i + 1) (g + 1) t

/-- Expected counter triples across a batch whose files have the given match
counts: local_no restarts at 1 each file, global_no runs on from g, file_no
advances once per file (zero-count files included). -/
def counterSpec : List Nat → Nat → Nat → List (Nat × Nat × Nat)
  | [], _, _ => []
  | c :: cs, g, t => counterBlock c 1 g t ++ counterSpec cs (g + c) (t + 1)

/-- The counter projection of a regex context record. -/
def cProj (r : IterMatchInfo) : Nat × Nat × Nat := (r.local_no, r.global_no, r.file_no)

/-- Context record yielded by element_iter with more_info (bc and the etree
object of the Python namedtuple are omitted; the element is abstract). -/
structure IterElementInfo (E : Type) where
  manifest_id : String
  local_no : Nat
  global_no : Nat
  file_no : Nat
  href : String
  mimetype : String
  element : E
deriving DecidableEq

/-- The counter projection of an element context record. -/
def eProj {E : Type} (r : IterElementInfo E) : Nat × Nat × Nat :=
  (r.local_no, r.global_no, r.file_no)

/-- Environment of external collaborators for the element walker: the
document-tree library's parser, the compiled selector, and the serializer
(composed with the utf-8 decode done by ctx_edit_sgml), plus the store's
mimetype lookup. -/
structure ElemEnv (Tree E : Type) where
  parse : String → Tree
  select : Tree → List E
  serialize : Tree → String
  id_to_mime : String → String

/-- Records produced for one file by element_iter with more_info. -/
def elemBlock {E : Type} (manifest_id href mime : String) :
    List E → Nat → Nat → Nat → List (IterElementInfo E)
  | [], _, _, _ => []
  | e :: es, i, j, k =>
    ⟨manifest_id, i, j, k, href, mime, e⟩ ::
      elemBlock manifest_id href mime es (i + 1) (j + 1) k

/-- element_iter over the predicate-accepted text files (each a triple of
manifest id, href, content), threading global_no j and file_no k: a file with
zero selector matches deletes its write_back flag and is skipped (k still
advances, via enumerate); a file with matches yields its records and is
written back iff re-serialization differs from the original content.
Returns the final global_no, the records, and the writes. -/
def element_iter_go {Tree E : Type} (env : ElemEnv Tree E) :
    List (String × String × String) → Nat → Nat →
    Nat × List (IterElementInfo E) × List (String × String)
  | [], j, _ => (j, [], [])
  | (manifest_id, href, content) :: items, j, k =>
    let tree := env.parse content
    let els := env.select tree
    if els.isEmpty then element_iter_go env items j (k + 1)
    else
      let s_new := env.serialize tree
      let wr := if content = s_new then ([] : List (String × String)) else [(manifest_id, s_new)]
      let rest := element_iter_go env items (j + els.length) (k + 1)
      (rest.1, elemBlock manifest_id href (env.id_to_mime manifest_id) els 1 (j + 1) k ++ rest.2.1,
        wr ++ rest.2.2)

/-- element_iter from the initial counters (j starts at 0, file enumeration
at 1). -/
def element_iter_run {Tree E : Type} (env : ElemEnv Tree E)
    (items : List (String × String × String)) :
    Nat × List (IterElementInfo E) × List (String × String) :=
  element_iter_go env items 0 1

/-- Snapshot of the mutable dict held by one ctx_edit(wrap_me) session of an
EditStack at close time: dataVal none models data either deleted or set to
None. -/
structure CtxEditDict where
  dataVal : Option String
  write_back : Bool
deriving DecidableEq

/-- State of an EditStack: the open sessions, each with its manifest id, the
content originally read, and the shared dict as the caller left it. -/
structure EditStackSt where
  sessions : List (String × String × CtxEditDict)
deriving DecidableEq

/-- Closing one ctx_edit(wrap_me) session: DoNotWriteBack when data is gone or
write_back is cleared, otherwise write iff the content differs from the
original read. -/
def ctx_edit_close (store : List (String × String)) (manifest_id original : String)
    (d : CtxEditDict) : List (String × String) :=
  match d.dataVal with
  | none => store
  | some v =>
    if d.write_back then
      (if original = v then store else store ++ [(manifest_id, v)])
    else store

/-- EditStack.__exit__ (also clear): empty the data cache and unwind the
ExitStack, closing the open sessions last-in first-out; the resulting stack
holds no sessions. -/
def editStackExit (st : EditStackSt) (store : List (String × String)) :
    List (String × String) × EditStackSt :=
  (st.sessions.reverse.foldl (fun s e => ctx_edit_close s e.1 e.2.1 e.2.2) store, ⟨[]⟩)

/-- Result of introspecting a predicate's positional arity; none from the
caller models both the missing __code__ object and getfullargspec raising. -/
structure ArgSpecR where
  argcount : Nat
  has_varargs : Bool
deriving DecidableEq

/-- Model of _posargcount: failed introspection falls back to (0, false). -/
def posargcount (intro : Option ArgSpecR) : ArgSpecR :=
  match intro with
  | some r => r
  | none => ⟨0, false⟩

/-- Model of _make_standard_predicate.  A Python callable is modelled as a
boolean function of its positional-argument list together with its
introspection result.  No predicate yields the constantly-true predicate;
otherwise the declared arity decides which prefix of (manifest_id, href,
mimetype) is passed. -/
def make_standard_predicate
    (predicate : Option ((List String → Bool) × Option ArgSpecR)) :
    String → String → String → Bool :=
  match predicate with
  | none => fun _ _ _ => true
  | some (p, intro) =>
    let r := posargcount intro
    if r.has_varargs = true ∨ 3 ≤ r.argcount then
      fun manifest_id href mimetype => p [manifest_id, href, mimetype]
    else if r.argcount = 2 then fun manifest_id href _ => p [manifest_id, href]
    else if r.argcount = 1 then fun manifest_id _ _ => p [manifest_id]
    else fun _ _ _ => p []

/-- A Python value that is either str or bytes (bytearray is folded into
bytes: both take the decode branch). -/
inductive PyStrB where
  | str : String → PyStrB
  | bytes : List Nat → PyStrB
deriving DecidableEq

/-- Payload of a WriteBack raised inside ctx_edit_sgml: str and bytes pass
through, anything else is first serialized with tostring. -/
inductive SgmlPayload (Tree : Type) where
  | str : String → SgmlPayload Tree
  | bytes : List Nat → SgmlPayload Tree
  | obj : Tree → SgmlPayload Tree

/-- How the caller's with-block over the yielded tree ends: normal completion
leaving the (possibly mutated) tree, a DoNotWriteBack (also covering a
non-None send), a WriteBack with payload, or any other error. -/
inductive SgmlOutcome (Tree : Type) where
  | normal : Tree → SgmlOutcome Tree
  | doNotWriteBack : SgmlOutcome Tree
  | writeBack : SgmlPayload Tree → SgmlOutcome Tree
  | err : SgmlOutcome Tree

/-- Python equality between the str content and a str-or-bytes value: values
of different types are never equal. -/
def pyEqStr (content : String) : PyStrB → Bool
  | PyStrB.str s => decide (content = s)
  | PyStrB.bytes _ => false

/-- The commit tail of ctx_edit_sgml: bytes and bytearray results are decoded
as utf-8 first, then the result is compared with the original content and
written back only when different. -/
def sgmlCommit (dec : List Nat → String) (content manifest_id : String) (c : PyStrB) :
    Bool × List (String × PyStrB) :=
  let c2 := match c with
    | PyStrB.bytes b => PyStrB.str (dec b)
    | x => x
  if pyEqStr content c2 then (false, []) else (true, [(manifest_id, c2)])

/-- Model of ctx_edit_sgml: read the item (a str), parse its utf-8 encoding,
hand the tree to the caller, then commit according to how the with-block
ended.  Writes carry PyStrB so that their runtime type is visible. -/
def ctx_edit_sgml_run {Tree : Type} (readfile : String → Option String)
    (enc : String → List Nat) (fromstring : List Nat → Tree)
    (tostring : Tree → PyStrB) (dec : List Nat → String)
    (consumer : Tree → SgmlOutcome Tree) (manifest_id : String) :
    Except EditErr (Bool × List (String × PyStrB)) :=
  match readfile manifest_id with
  | none => Except.error EditErr.itemNotFound
  | some content =>
    let tree := fromstring (enc content)
    match consumer tree with
    | SgmlOutcome.doNotWriteBack => Except.ok (false, [])
    | SgmlOutcome.err => Except.error EditErr.opError
    | SgmlOutcome.writeBack d =>
      let c1 := match d with
        | SgmlPayload.str s => PyStrB.str s
        | SgmlPayload.bytes b => PyStrB.bytes b
        | SgmlPayload.obj t => tostring t
      Except.ok (sgmlCommit dec content manifest_id c1)
    | SgmlOutcome.normal t => Except.ok (sgmlCommit dec content manifest_id (tostring t))

/-- Concrete regex environment used by witnesses: one file content, one match
per file, a replacement callable that always raises. -/
def sampleREnv : REnv where
  readfile := fun _ => some "xx"
  finditer := fun _ => ["m"]
  subWith := fun s _ => s
  id_to_href := fun s => s
  id_to_mime := fun _ => "t"
  repl := fun _ => none

/-- Concrete element-walker environment used by witnesses: every parsed tree
has zero selector matches. -/
def sampleElemEnv : ElemEnv Nat Nat where
  parse := fun _ => 0
  select := fun _ => []
  serialize := fun _ => ""
  id_to_mime := fun _ => "t"

/-! Helper lemmas. -/

theorem counterBlock_glob (c : Nat) :
    ∀ i g t, (counterBlock c i g t).map (fun p => p.2.1) = List.range' g c := by
  induction c with
  | zero => intro i g t; rfl
  | succ n ih =>
    intro i g t
    simp only [counterBlock, List.map_cons, ih]
    rfl

theorem counterSpec_glob (cs : List Nat) :
    ∀ g t, (counterSpec cs g t).map (fun p => p.2.1) = List.range' g cs.sum := by
  induction cs with
  | nil => intro g t; rfl
  | cons c cs ih =>
    intro g t
    simp only [counterSpec, List.map_append, counterBlock_glob, ih, List.sum_cons]
    rw [Nat.add_comm c cs.sum]
    exact List.range'_append_1 g c cs.sum

theorem chain_lt_range' (n : Nat) :
    ∀ s, List.Chain' (fun a b => a < b) (List.range' s n) := by
  induction n with
  | zero => intro s; simp
  | succ m ih =>
    intro s
    cases m with
    | zero => simp
    | succ m2 =>
      rw [show List.range' s (m2 + 1 + 1) = s :: List.range' (s + 1) (m2 + 1) from rfl,
          show List.range' (s + 1) (m2 + 1) = (s + 1) :: List.range' (s + 1 + 1) m2 from rfl]
      exact List.Chain'.cons (by omega)
        (by rw [show ((s + 1) :: List.range' (s + 1 + 1) m2) = List.range' (s + 1) (m2 + 1) from rfl]
            exact ih (s + 1))

theorem buildMatchRecs_proj (manifest_id href mime s : String) (ms : List String) :
    ∀ i j k, (buildMatchRecs manifest_id href mime s ms i j k).map cProj
      = counterBlock ms.length i j k := by
  induction ms with
  | nil => intro i j k; rfl
  | cons m ms ih =>
    intro i j k
    simp only [buildMatchRecs, List.map_cons, ih, List.length_cons, counterBlock]
    rfl

theorem elemBlock_proj {E : Type} (manifest_id href mime : String) (es : List E) :
    ∀ i j k, (elemBlock manifest_id href mime es i j k).map eProj
      = counterBlock es.length i j k := by
  induction es with
  | nil => intro i j k; rfl
  | cons e es ih =>
    intro i j k
    simp only [elemBlock, List.map_cons, ih, List.length_cons, counterBlock]
    rfl

theorem re_sub_run_append (errors : Errors) (env : REnv) (xs : List String) :
    ∀ ys st, re_sub_run errors env (xs ++ ys) st
      = (re_sub_run errors env xs st).bind (fun st2 => re_sub_run errors env ys st2) := by
  induction xs with
  | nil => intro ys st; rfl
  | cons x xs ih =>
    intro ys st
    simp only [List.cons_append, re_sub_run]
    cases re_sub_item errors env st x with
    | none => rfl
    | some st2 => exact ih ys st2

theorem re_iter_more_eq (errors : Errors) (env : REnv) :
    ∀ (ids contents : List String) (j k : Nat),
      ids.map env.readfile = contents.map some →
      re_iter_more errors env ids (j, k)
        = some ((j + (contents.map fun s => (env.finditer s).length).sum, k + ids.length),
            expectedRecs env ids contents j k) := by
  intro ids
  induction ids with
  | nil =>
    intro contents j k hc
    cases contents with
    | nil => simp [re_iter_more, expectedRecs]
    | cons c cs => simp at hc
  | cons manifest_id ids ih =>
    intro contents j k hc
    cases contents with
    | nil => simp at hc
    | cons s ss =>
      simp only [List.map_cons, List.cons.injEq] at hc
      obtain ⟨h1, h2⟩ := hc
      simp only [re_iter_more, re_iter_more_item, h1]
      rw [ih ss (j + (env.finditer s).length) (k + 1) h2]
      simp only [expectedRecs, List.map_cons, List.sum_cons, List.length_cons,
        Option.some.injEq, Prod.mk.injEq]
      refine ⟨⟨by omega, by omega⟩, trivial⟩

theorem expectedRecs_proj (env : REnv) :
    ∀ (ids contents : List String) (j k : Nat), ids.length = contents.length →
      (expectedRecs env ids contents j k).map cProj
        = counterSpec (contents.map fun s => (env.finditer s).length) j k := by
  intro ids
  induction ids with
  | nil =>
    intro contents j k hl
    cases contents with
    | nil => rfl
    | cons c cs => simp at hl
  | cons manifest_id ids ih =>
    intro contents j k hl
    cases contents with
    | nil => simp at hl
    | cons s ss =>
      simp only [List.length_cons, Nat.add_right_cancel_iff] at hl
      simp only [expectedRecs, List.map_append, buildMatchRecs_proj,
        List.map_cons, counterSpec, ih ss (j + (env.finditer s).length) (k + 1) hl]

theorem element_iter_go_counters {Tree E : Type} (eenv : ElemEnv Tree E) :
    ∀ (items : List (String × String × String)) (j k : Nat),
      (element_iter_go eenv items j k).1
        = j + (items.map fun it => (eenv.select (eenv.parse it.2.2)).length).sum ∧
      (element_iter_go eenv items j k).2.1.map eProj
        = counterSpec (items.map fun it => (eenv.select (eenv.parse it.2.2)).length)
            (j + 1) k := by
  intro items
  induction items with
  | nil => intro j k; exact ⟨rfl, rfl⟩
  | cons it items ih =>
    intro j k
    obtain ⟨manifest_id, href, content⟩ := it
    cases hels : eenv.select (eenv.parse content) with
    | nil =>
      have hgo : element_iter_go eenv ((manifest_id, href, content) :: items) j k
          = element_iter_go eenv items j (k + 1) := by
        simp [element_iter_go, hels]
      rw [hgo]
      obtain ⟨ha, hb⟩ := ih j (k + 1)
      constructor
      · simp [ha, hels]
      · simp [hb, hels, counterSpec, counterBlock]
    | cons e es =>
      have hne : (eenv.select (eenv.parse content)).isEmpty = false := by
        rw [hels]; rfl
      have hgo : element_iter_go eenv ((manifest_id, href, content) :: items) j k
          = ((element_iter_go eenv items (j + (e :: es).length) (k + 1)).1,
             elemBlock manifest_id href (eenv.id_to_mime manifest_id) (e :: es) 1 (j + 1) k
               ++ (element_iter_go eenv items (j + (e :: es).length) (k + 1)).2.1,
             (if content = eenv.serialize (eenv.parse content)
                then ([] : List (String × String))
                else [(manifest_id, eenv.serialize (eenv.parse content))])
               ++ (element_iter_go eenv items (j + (e :: es).length) (k + 1)).2.2) := by
        simp only [element_iter_go, hels, hne]
        rfl
      rw [hgo]
      obtain ⟨ha, hb⟩ := ih (j + (e :: es).length) (k + 1)
      constructor
      · simp only [ha, List.map_cons, List.sum_cons, hels]
        omega
      · simp only [List.map_append, elemBlock_proj, hb, List.map_cons, List.sum_cons,
          hels, counterSpec]
        have : j + (e :: es).length + 1 = j + 1 + (e :: es).length := by omega
        rw [this]

theorem elemBlock_manifest {E : Type} (manifest_id href mime : String) (es : List E) :
    ∀ i j k r, r ∈ elemBlock manifest_id href mime es i j k → r.manifest_id = manifest_id := by
  induction es with
  | nil => intro i j k r hr; simp [elemBlock] at hr
  | cons e es ih =>
    intro i j k r hr
    simp only [elemBlock, List.mem_cons] at hr
    cases hr with
    | inl h => rw [h]
    | inr h => exact ih (i + 1) (j + 1) k r h

theorem element_iter_go_sources {Tree E : Type} (eenv : ElemEnv Tree E) :
    ∀ (items : List (String × String × String)) (j k : Nat),
      (∀ r ∈ (element_iter_go eenv items j k).2.1,
        ∃ it ∈ items, r.manifest_id = it.1 ∧ eenv.select (eenv.parse it.2.2) ≠ []) ∧
      (∀ w ∈ (element_iter_go eenv items j k).2.2,
        ∃ it ∈ items, w.1 = it.1 ∧ eenv.select (eenv.parse it.2.2) ≠ []) := by
  intro items
  induction items with
  | nil =>
    intro j k
    constructor
    · intro r hr; simp [element_iter_go] at hr
    · intro w hw; simp [element_iter_go] at hw
  | cons it items ih =>
    intro j k
    obtain ⟨manifest_id, href, content⟩ := it
    cases hels : eenv.select (eenv.parse content) with
    | nil =>
      have hgo : element_iter_go eenv ((manifest_id, href, content) :: items) j k
          = element_iter_go eenv items j (k + 1) := by
        simp [element_iter_go, hels]
      rw [hgo]
      constructor
      · intro r hr
        obtain ⟨it2, hit2, hre⟩ := (ih j (k + 1)).1 r hr
        exact ⟨it2, List.mem_cons_of_mem _ hit2, hre⟩
      · intro w hw
        obtain ⟨it2, hit2, hwe⟩ := (ih j (k + 1)).2 w hw
        exact ⟨it2, List.mem_cons_of_mem _ hit2, hwe⟩
    | cons e es =>
      have hne : (eenv.select (eenv.parse content)).isEmpty = false := by
        rw [hels]; rfl
      have hgo : element_iter_go eenv ((manifest_id, href, content) :: items) j k
          = ((element_iter_go eenv items (j + (e :: es).length) (k + 1)).1,
             elemBlock manifest_id href (eenv.id_to_mime manifest_id) (e :: es) 1 (j + 1) k
               ++ (element_iter_go eenv items (j + (e :: es).length) (k + 1)).2.1,
             (if content = eenv.serialize (eenv.parse content)
                then ([] : List (String × String))
                else [(manifest_id, eenv.serialize (eenv.parse content))])
               ++ (element_iter_go eenv items (j + (e :: es).length) (k + 1)).2.2) := by
        simp only [element_iter_go, hels, hne]
        rfl
      rw [hgo]
      constructor
      · intro r hr
        simp only [List.mem_append] at hr
        cases hr with
        | inl h =>
          refine ⟨(manifest_id, href, content), List.mem_cons_self _ _, ?_, ?_⟩
          · exact elemBlock_manifest manifest_id href (eenv.id_to_mime manifest_id)
              (e :: es) 1 (j + 1) k r h
          · rw [hels]; simp
        | inr h =>
          obtain ⟨it2, hit2, hre⟩ := (ih (j + (e :: es).length) (k + 1)).1 r h
          exact ⟨it2, List.mem_cons_of_mem _ hit2, hre⟩
      · intro w hw
        simp only [List.mem_append] at hw
        cases hw with
        | inl h =>
          by_cases hcs : content = eenv.serialize (eenv.parse content)
          · rw [if_pos hcs] at h
            simp at h
          · simp only [if_neg hcs, List.mem_singleton] at h
            refine ⟨(manifest_id, href, content), List.mem_cons_self _ _, ?_, ?_⟩
            · rw [h]
            · rw [hels]; simp
        | inr h =>
          obtain ⟨it2, hit2, hwe⟩ := (ih (j + (e :: es).length) (k + 1)).2 w h
          exact ⟨it2, List.mem_cons_of_mem _ hit2, hwe⟩

theorem element_iter_go_all_empty {Tree E : Type} (eenv : ElemEnv Tree E) :
    ∀ (items : List (String × String × String)) (j k : Nat),
      (∀ it ∈ items, eenv.select (eenv.parse it.2.2) = []) →
      element_iter_go eenv items j k = (j, [], []) := by
  intro items
  induction items with
  | nil => intro j k _; rfl
  | cons it items ih =>
    intro j k hall
    obtain ⟨manifest_id, href, content⟩ := it
    have hels : eenv.select (eenv.parse content) = [] :=
      hall (manifest_id, href, content) (List.mem_cons_self _ _)
    have hrest : ∀ it2 ∈ items, eenv.select (eenv.parse it2.2.2) = [] :=
      fun it2 hit2 => hall it2 (List.mem_cons_of_mem _ hit2)
    have hgo : element_iter_go eenv ((manifest_id, href, content) :: items) j k
        = element_iter_go eenv items j (k + 1) := by
      simp [element_iter_go, hels]
    rw [hgo, ih j (k + 1) hrest]

theorem sgmlCommit_writes_str (dec : List Nat → String) (content manifest_id : String)
    (c : PyStrB) :
    ∀ w ∈ (sgmlCommit dec content manifest_id c).2, ∃ s, w.2 = PyStrB.str s := by
  intro w hw
  cases c with
  | str s =>
    simp only [sgmlCommit] at hw
    by_cases he : pyEqStr content (PyStrB.str s) = true
    · simp [he] at hw
    · simp only [Bool.not_eq_true] at he
      simp [he] at hw
      exact ⟨s, by rw [hw]⟩
  | bytes b =>
    simp only [sgmlCommit] at hw
    by_cases he : pyEqStr content (PyStrB.str (dec b)) = true
    · simp [he] at hw
    · simp only [Bool.not_eq_true] at he
      simp [he] at hw
      exact ⟨dec b, by rw [hw]⟩

/-! Claim theorems. -/

/-- Claim C1: with a transform whose result equals the original content, edit
returns false and performs no write; and edit returns true exactly when the
transform produced (normally or via WriteBack) content different from the
original, in which case exactly that content is written. -/
theorem edit_write_iff_changed (readfile : String → Option String)
    (operate : String → OpResult String) (manifest_id content : String)
    (h : readfile manifest_id = some content) :
    (operate content = OpResult.ret content →
      edit readfile operate manifest_id = Except.ok (false, [])) ∧
    (∀ w : List (String × String),
      edit readfile operate manifest_id = Except.ok (true, w) ↔
      ∃ content_new, (operate content = OpResult.ret content_new ∨
          operate content = OpResult.writeBack content_new) ∧
        content_new ≠ content ∧ w = [(manifest_id, content_new)]) := by
  constructor
  · intro hop
    simp [edit, h, hop]
  · intro w
    constructor
    · intro hw
      cases hop : operate content with
      | doNotWriteBack => simp [edit, h, hop] at hw
      | err => simp [edit, h, hop] at hw
      | ret c =>
        by_cases hc : content = c
        · subst hc
          simp [edit, h, hop] at hw
        · simp [edit, h, hop, hc] at hw
          exact ⟨c, Or.inl rfl, fun he => hc he.symm, hw.symm⟩
      | writeBack c =>
        by_cases hc : content = c
        · subst hc
          simp [edit, h, hop] at hw
        · simp [edit, h, hop, hc] at hw
          exact ⟨c, Or.inr rfl, fun he => hc he.symm, hw.symm⟩
    · rintro ⟨c, hop, hne, hw⟩
      have hc : ¬ content = c := fun he => hne he.symm
      cases hop with
      | inl hop => simp [edit, h, hop, hc, hw]
      | inr hop => simp [edit, h, hop, hc, hw]

/-- Witness for edit_write_iff_changed at a concrete store and transform. -/
theorem edit_write_iff_changed_witness :
    edit (fun _ => some "x") (fun c => OpResult.ret c) "a" = Except.ok (false, []) :=
  (edit_write_iff_changed (fun _ => some "x") (fun c => OpResult.ret c) "a" "x" rfl).1 rfl

/-- Claim C5: a transform that signals discard (raises DoNotWriteBack) never
causes a write for that item, and edit returns false. -/
theorem edit_discard_no_write (readfile : String → Option String)
    (operate : String → OpResult String) (manifest_id content : String)
    (h : readfile manifest_id = some content)
    (hop : operate content = OpResult.doNotWriteBack) :
    edit readfile operate manifest_id = Except.ok (false, []) := by
  simp [edit, h, hop]

/-- Witness for edit_discard_no_write at a concrete store and transform. -/
theorem edit_discard_no_write_witness :
    edit (fun _ => some "x") (fun _ => OpResult.doNotWriteBack) "a"
      = Except.ok (false, []) :=
  edit_discard_no_write (fun _ => some "x") (fun _ => OpResult.doNotWriteBack) "a" "x"
    rfl rfl

/-- Claim C9: even an explicit WriteBack signal whose payload equals the
original content causes no write, and edit returns false. -/
theorem edit_writeback_equal_no_write (readfile : String → Option String)
    (operate : String → OpResult String) (manifest_id content : String)
    (h : readfile manifest_id = some content)
    (hop : operate content = OpResult.writeBack content) :
    edit readfile operate manifest_id = Except.ok (false, []) := by
  simp [edit, h, hop]

/-- Witness for edit_writeback_equal_no_write at a concrete store and transform. -/
theorem edit_writeback_equal_no_write_witness :
    edit (fun _ => some "x") (fun c => OpResult.writeBack c) "a"
      = Except.ok (false, []) :=
  edit_writeback_equal_no_write (fun _ => some "x") (fun c => OpResult.writeBack c)
    "a" "x" rfl rfl

/-- Claim C2: in re_sub with a callable replacement and more_info under the
skip policy, when the callable raises on some match of a file, that file is
abandoned with the whole state (global_no included) restored to its value
before the file started, and the run continues with the remaining files as if
from that state. -/
theorem re_sub_skip_rolls_back_global_no (env : REnv) (pre suf : List String)
    (idk s : String) (st0 st : ReSubSt) (i2 j2 : Nat)
    (hpre : re_sub_run Errors.skip env pre st0 = some st)
    (hread : env.readfile idk = some s)
    (hfail : runRepls env.repl idk (env.id_to_href idk) (env.id_to_mime idk) s st.k
        (env.finditer s) 1 st.j = SubRun.fail i2 j2) :
    re_sub_item Errors.skip env st idk = some st ∧
    re_sub_run Errors.skip env (pre ++ idk :: suf) st0
      = re_sub_run Errors.skip env suf st := by
  have hitem : re_sub_item Errors.skip env st idk = some st := by
    simp [re_sub_item, hread, hfail]
  refine ⟨hitem, ?_⟩
  rw [re_sub_run_append, hpre]
  have hb : (some st).bind (fun st2 => re_sub_run Errors.skip env (idk :: suf) st2)
      = re_sub_run Errors.skip env (idk :: suf) st := rfl
  rw [hb]
  simp only [re_sub_run, hitem]

/-- Witness for re_sub_skip_rolls_back_global_no: the sample environment's
replacement raises on the single match of file a. -/
theorem re_sub_skip_rolls_back_global_no_witness :
    re_sub_item Errors.skip sampleREnv ⟨1, 1, []⟩ "a" = some ⟨1, 1, []⟩ ∧
    re_sub_run Errors.skip sampleREnv ([] ++ "a" :: []) ⟨1, 1, []⟩
      = re_sub_run Errors.skip sampleREnv [] ⟨1, 1, []⟩ :=
  re_sub_skip_rolls_back_global_no sampleREnv [] [] "a" "xx" ⟨1, 1, []⟩ ⟨1, 1, []⟩ 1 1
    rfl rfl rfl

/-- Claim C3 counterexample: a read failure for an explicitly listed id is
not surfaced under the ignore or skip policies of re_iter (the run completes
with no matches and no error), and edit_batch never raises for it either,
recording success_status false instead. -/
theorem missing_item_swallowed_counterexample :
    re_iter_simple Errors.ignore (fun _ => none) (fun _ => []) ["x"] = some [] ∧
    re_iter_simple Errors.skip (fun _ => none) (fun _ => []) ["x"] = some [] ∧
    (edit_batch_run (fun _ => none) (fun c => OpResult.ret c) ["x"]).1
      = [("x", false)] ∧
    (edit_batch_run (fun _ => none) (fun c => OpResult.ret c) ["x"]).2 = [] :=
  ⟨rfl, rfl, rfl, rfl⟩

/-- Claim C3 amended: a read failure for a listed id is surfaced immediately
only under the raise policy; under ignore and skip re_iter swallows it (the
file contributes nothing), and edit_batch always swallows it, recording the
id with status false and performing no write. -/
theorem missing_item_policy_behavior (readfile : String → Option String)
    (finditer : String → List String) (operate : String → OpResult String)
    (manifest_id : String) (ids : List String)
    (h : readfile manifest_id = none) :
    re_iter_simple Errors.raise readfile finditer (manifest_id :: ids) = none ∧
    re_iter_simple Errors.ignore readfile finditer (manifest_id :: ids)
      = re_iter_simple Errors.ignore readfile finditer ids ∧
    re_iter_simple Errors.skip readfile finditer (manifest_id :: ids)
      = re_iter_simple Errors.skip readfile finditer ids ∧
    (edit_batch_run readfile operate (manifest_id :: ids)).1
      = (manifest_id, false) :: (edit_batch_run readfile operate ids).1 ∧
    (edit_batch_run readfile operate (manifest_id :: ids)).2
      = (edit_batch_run readfile operate ids).2 := by
  refine ⟨?_, ?_, ?_, ?_, ?_⟩
  · simp [re_iter_simple, re_iter_simple_item, h]
  · cases hrest : re_iter_simple Errors.ignore readfile finditer ids <;>
      simp [re_iter_simple, re_iter_simple_item, h, hrest]
  · cases hrest : re_iter_simple Errors.skip readfile finditer ids <;>
      simp [re_iter_simple, re_iter_simple_item, h, hrest]
  · simp [edit_batch_run, edit_batch_item, h]
  · simp [edit_batch_run, edit_batch_item, h]

/-- Witness for missing_item_policy_behavior at a concrete store. -/
theorem missing_item_policy_behavior_witness :
    re_iter_simple Errors.raise (fun _ => none) (fun _ => []) ("x" :: []) = none :=
  (missing_item_policy_behavior (fun _ => none) (fun _ => [])
    (fun c => OpResult.ret c) "x" [] rfl).1

/-- Claim C4: over an error-free run of the more_info branch of re_iter the
final global_no is 1 plus the sum of the per-file match counts (the counter
is incremented after each yield, so the last yielded global_no is the sum),
file_no ends at 1 plus the number of files, and the yielded records carry the
counterSpec numbering: local_no restarting at 1 per file, global_no exactly
1, 2, ... sum (hence strictly increasing), file_no advancing once per file
including zero-match files; and the element walker yields the same numbering
over elements, its final global_no equal to the sum of element counts. -/
theorem batch_counters_spec (errors : Errors) (env : REnv)
    (ids contents : List String) {Tree E : Type} (eenv : ElemEnv Tree E)
    (eitems : List (String × String × String))
    (hc : ids.map env.readfile = contents.map some) :
    re_iter_more errors env ids (1, 1)
      = some ((1 + (contents.map fun s => (env.finditer s).length).sum, 1 + ids.length),
          expectedRecs env ids contents 1 1) ∧
    (expectedRecs env ids contents 1 1).map cProj
      = counterSpec (contents.map fun s => (env.finditer s).length) 1 1 ∧
    (expectedRecs env ids contents 1 1).map (fun r => r.global_no)
      = List.range' 1 (contents.map fun s => (env.finditer s).length).sum ∧
    List.Chain' (fun a b => a < b)
      ((expectedRecs env ids contents 1 1).map fun r => r.global_no) ∧
    (element_iter_run eenv eitems).1
      = (eitems.map fun it => (eenv.select (eenv.parse it.2.2)).length).sum ∧
    (element_iter_run eenv eitems).2.1.map eProj
      = counterSpec (eitems.map fun it => (eenv.select (eenv.parse it.2.2)).length) 1 1 ∧
    (element_iter_run eenv eitems).2.1.map (fun r => r.global_no)
      = List.range' 1 (eitems.map fun it => (eenv.select (eenv.parse it.2.2)).length).sum ∧
    List.Chain' (fun a b => a < b)
      ((element_iter_run eenv eitems).2.1.map fun r => r.global_no) := by
  have hlen : ids.length = contents.length := by
    have := congrArg List.length hc
    simpa using this
  have hproj := expectedRecs_proj env ids contents 1 1 hlen
  have hglob : (expectedRecs env ids contents 1 1).map (fun r => r.global_no)
      = List.range' 1 (contents.map fun s => (env.finditer s).length).sum := by
    have hm : (expectedRecs env ids contents 1 1).map (fun r => r.global_no)
        = ((expectedRecs env ids contents 1 1).map cProj).map (fun p => p.2.1) := by
      rw [List.map_map]; rfl
    rw [hm, hproj, counterSpec_glob]
  have hec := element_iter_go_counters eenv eitems 0 1
  have heglob : (element_iter_run eenv eitems).2.1.map (fun r => r.global_no)
      = List.range' 1 (eitems.map fun it => (eenv.select (eenv.parse it.2.2)).length).sum := by
    have hm : (element_iter_run eenv eitems).2.1.map (fun r => r.global_no)
        = ((element_iter_run eenv eitems).2.1.map eProj).map (fun p => p.2.1) := by
      rw [List.map_map]; rfl
    rw [hm]
    rw [show (element_iter_run eenv eitems).2.1 = (element_iter_go eenv eitems 0 1).2.1 from rfl]
    rw [hec.2, counterSpec_glob]
  refine ⟨re_iter_more_eq errors env ids contents 1 1 hc, hproj, hglob, ?_, ?_, ?_, heglob, ?_⟩
  · rw [hglob]; exact chain_lt_range' _ 1
  · simp only [element_iter_run, hec.1]
    omega
  · exact hec.2
  · rw [heglob]; exact chain_lt_range' _ 1

/-- Witness for batch_counters_spec on a one-file store with one match. -/
theorem batch_counters_spec_witness :
    re_iter_more Errors.ignore sampleREnv ["a"] (1, 1)
      = some ((1 + ((["xx"].map fun s => (sampleREnv.finditer s).length).sum),
          1 + (["a"] : List String).length),
        expectedRecs sampleREnv ["a"] ["xx"] 1 1) :=
  (batch_counters_spec Errors.ignore sampleREnv ["a"] ["xx"] sampleElemEnv [] rfl).1

/-- Claim C6: closing an EditStack a second time changes nothing: after one
close the stack holds no sessions, so a repeated close (or a close after any
later mutation of a previously obtained content object, which is no longer
cached) returns the store untouched and never errors. -/
theorem edit_stack_close_idempotent (st : EditStackSt) (store : List (String × String)) :
    editStackExit (editStackExit st store).2 (editStackExit st store).1
      = editStackExit st store ∧
    (editStackExit st store).2 = ⟨[]⟩ ∧
    (∀ store2 : List (String × String), editStackExit ⟨[]⟩ store2 = (store2, ⟨[]⟩)) :=
  ⟨rfl, rfl, fun _ => rfl⟩

/-- Claim C7: in the element walker every yielded record and every write
comes from a file whose parsed tree has at least one selector match, and if
the expression matches zero elements in every file the run yields nothing
and writes nothing. -/
theorem element_iter_zero_match_frame {Tree E : Type} (eenv : ElemEnv Tree E)
    (items : List (String × String × String)) :
    ((∀ it ∈ items, eenv.select (eenv.parse it.2.2) = []) →
      element_iter_run eenv items = (0, [], [])) ∧
    (∀ r ∈ (element_iter_run eenv items).2.1,
      ∃ it ∈ items, r.manifest_id = it.1 ∧ eenv.select (eenv.parse it.2.2) ≠ []) ∧
    (∀ w ∈ (element_iter_run eenv items).2.2,
      ∃ it ∈ items, w.1 = it.1 ∧ eenv.select (eenv.parse it.2.2) ≠ []) :=
  ⟨element_iter_go_all_empty eenv items 0 1,
   (element_iter_go_sources eenv items 0 1).1,
   (element_iter_go_sources eenv items 0 1).2⟩

/-- Witness for element_iter_zero_match_frame: a selector matching nothing
produces no output and no write. -/
theorem element_iter_zero_match_frame_witness :
    element_iter_run sampleElemEnv [("a", "h", "c")] = (0, [], []) :=
  (element_iter_zero_match_frame sampleElemEnv [("a", "h", "c")]).1 (fun _ _ => rfl)

/-- Claim C8: the predicate adapter returns the constantly-true predicate
when none is supplied; calls a variadic predicate, or one declaring three or
more positional parameters, with all of (manifest_id, href, mimetype); calls
one declaring at most three with exactly that prefix of the three arguments;
and calls the predicate with no arguments when introspection failed. -/
theorem predicate_adapter_canonical (p : List String → Bool) (r : ArgSpecR)
    (manifest_id href mimetype : String) :
    make_standard_predicate none manifest_id href mimetype = true ∧
    make_standard_predicate (some (p, none)) manifest_id href mimetype = p [] ∧
    (r.has_varargs = true ∨ 3 ≤ r.argcount →
      make_standard_predicate (some (p, some r)) manifest_id href mimetype
        = p [manifest_id, href, mimetype]) ∧
    (r.has_varargs = false → r.argcount ≤ 3 →
      make_standard_predicate (some (p, some r)) manifest_id href mimetype
        = p ([manifest_id, href, mimetype].take r.argcount)) := by
  refine ⟨rfl, ?_, ?_, ?_⟩
  · simp [make_standard_predicate, posargcount]
  · intro h
    simp [make_standard_predicate, posargcount, h]
  · intro hv hc
    obtain ⟨c, v⟩ := r
    have hv2 : v = false := hv
    subst hv2
    have hc2 : c ≤ 3 := hc
    interval_cases c <;> simp [make_standard_predicate, posargcount]

/-- Witness for predicate_adapter_canonical on a two-argument predicate. -/
theorem predicate_adapter_canonical_witness :
    make_standard_predicate (some (fun l => l.isEmpty, some ⟨2, false⟩)) "i" "h" "m"
      = (fun l : List String => l.isEmpty) (["i", "h", "m"].take 2) :=
  (predicate_adapter_canonical (fun l => l.isEmpty) ⟨2, false⟩ "i" "h" "m").2.2.2
    rfl (by decide)

/-- Claim C10: whenever a structured-tree edit session commits, the value
handed to writefile is a str (bytes and bytearray results are decoded as
utf-8 first), and the decode happens before the comparison with the original
content: committing a bytes value behaves exactly like committing its decoded
string. -/
theorem ctx_edit_sgml_writes_str {Tree : Type} (readfile : String → Option String)
    (enc : String → List Nat) (fromstring : List Nat → Tree)
    (tostring : Tree → PyStrB) (dec : List Nat → String)
    (consumer : Tree → SgmlOutcome Tree) (manifest_id : String)
    (b : Bool) (ws : List (String × PyStrB))
    (h : ctx_edit_sgml_run readfile enc fromstring tostring dec consumer manifest_id
      = Except.ok (b, ws)) :
    (∀ w ∈ ws, ∃ s, w.2 = PyStrB.str s) ∧
    (∀ content bs, sgmlCommit dec content manifest_id (PyStrB.bytes bs)
      = sgmlCommit dec content manifest_id (PyStrB.str (dec bs))) := by
  refine ⟨?_, fun content bs => rfl⟩
  intro w hw
  cases hr : readfile manifest_id with
  | none => simp [ctx_edit_sgml_run, hr] at h
  | some content =>
    cases hcons : consumer (fromstring (enc content)) with
    | doNotWriteBack =>
      simp only [ctx_edit_sgml_run, hr, hcons, Except.ok.injEq, Prod.mk.injEq] at h
      rw [← h.2] at hw
      simp at hw
    | err => simp [ctx_edit_sgml_run, hr, hcons] at h
    | normal t =>
      simp only [ctx_edit_sgml_run, hr, hcons, Except.ok.injEq] at h
      have hws : ws = (sgmlCommit dec content manifest_id (tostring t)).2 := by
        rw [h]
      rw [hws] at hw
      exact sgmlCommit_writes_str dec content manifest_id (tostring t) w hw
    | writeBack d =>
      cases d with
      | str s =>
        simp only [ctx_edit_sgml_run, hr, hcons, Except.ok.injEq] at h
        have hws : ws = (sgmlCommit dec content manifest_id (PyStrB.str s)).2 := by
          rw [h]
        rw [hws] at hw
        exact sgmlCommit_writes_str dec content manifest_id (PyStrB.str s) w hw
      | bytes bs =>
        simp only [ctx_edit_sgml_run, hr, hcons, Except.ok.injEq] at h
        have hws : ws = (sgmlCommit dec content manifest_id (PyStrB.bytes bs)).2 := by
          rw [h]
        rw [hws] at hw
        exact sgmlCommit_writes_str dec content manifest_id (PyStrB.bytes bs) w hw
      | obj t =>
        simp only [ctx_edit_sgml_run, hr, hcons, Except.ok.injEq] at h
        have hws : ws = (sgmlCommit dec content manifest_id (tostring t)).2 := by
          rw [h]
        rw [hws] at hw
        exact sgmlCommit_writes_str dec content manifest_id (tostring t) w hw

/-- Witness for ctx_edit_sgml_writes_str: a bytes-returning serializer still
commits a str. -/
theorem ctx_edit_sgml_writes_str_witness :
    ∃ s, (("a", PyStrB.str "h") : String × PyStrB).2 = PyStrB.str s :=
  (ctx_edit_sgml_writes_str (fun _ => some "x") (fun _ => []) (fun _ => ())
      (fun _ => PyStrB.bytes [104]) (fun _ => "h") (fun _ => SgmlOutcome.normal ()) "a"
      true [("a", PyStrB.str "h")] rfl).1 ("a", PyStrB.str "h") (by simp)

end SigilEditor
